import Mathlib

/-!
Shallow embedding of the quilt-tessalator generation engine
(`src/lib/geometry.ts`, `src/lib/tessellation.ts`, `src/lib/types.ts`).

Conventions of the embedding:
* JavaScript numbers are idealized as exact rationals (`ℚ`).
* `Math.sqrt` is embedded as Mathlib's `Rat.sqrt` (integer square root of
  numerator and denominator).  On every code path the verified theorems
  exercise, the argument is either a perfect rational square (where
  `Rat.sqrt` is exact) or only an upper bound on the root is needed.
* `Math.random()` (the ambient random source, range `[0, 1)`) is embedded
  as an explicit stream `r : ℕ → ℚ` together with a cursor `k : ℕ` that is
  threaded through every function in exactly the order the source draws.
* Mutation of the piece list is embedded as functional update.
-/

/-- A 2D point, `{ x: number; y: number }` from `types.ts`. -/
structure Point where
  x : ℚ
  y : ℚ
deriving DecidableEq, Repr, Inhabited

/-- `Polygon = Point[]` from `types.ts`. -/
abbrev Polygon := List Point

/-- `createRectangle` from `geometry.ts`. -/
def createRectangle (x y width height : ℚ) : Polygon :=
  [⟨x, y⟩, ⟨x + width, y⟩, ⟨x + width, y + height⟩, ⟨x, y + height⟩]

/-- `createSquare` from `geometry.ts`. -/
def createSquare (x y size : ℚ) : Polygon :=
  createRectangle x y size size

/-- The `splitRectangle` function from `geometry.ts`.  The JS destructuring
`const [tl, tr, br, bl] = rect` is embedded with `getD`; the two
`Math.random()` draws are `r k` and `r (k+1)`.  Returns the two polygons
together with the advanced random cursor. -/
def splitRectangle (rect : Polygon) (angleVariation : ℚ) (r : ℕ → ℚ) (k : ℕ) :
    (Polygon × Polygon) × ℕ :=
  let tl := rect.getD 0 default
  let tr := rect.getD 1 default
  let br := rect.getD 2 default
  let bl := rect.getD 3 default
  let width := tr.x - tl.x
  if angleVariation = 0 then
    -- diagonal split: one draw chooses between the two diagonals
    if r k < 1/2 then
      (([tl, tr, br], [tl, br, bl]), k + 1)
    else
      (([tl, tr, bl], [tr, br, bl]), k + 1)
  else
    -- angled split: two independent draws for the top and bottom cut
    let maxDeviation := angleVariation * (8/10)
    let topT := 1/2 + (r k - 1/2) * maxDeviation
    let topPoint : Point := ⟨tl.x + width * max (1/10) (min (9/10) topT), tl.y⟩
    let bottomT := 1/2 + (r (k+1) - 1/2) * maxDeviation
    let bottomPoint : Point := ⟨bl.x + width * max (1/10) (min (9/10) bottomT), bl.y⟩
    (([tl, topPoint, bottomPoint, bl], [topPoint, tr, br, bottomPoint]), k + 2)

/-- The signed shoelace accumulation `area += x_i*y_j; area -= x_j*y_i`
computed at the top of `offsetPolygon` in `geometry.ts` (twice the signed
area of the polygon). -/
def shoelaceSum (p : Polygon) : ℚ :=
  (List.range p.length).foldl
    (fun a i =>
      let pi := p.getD i default
      let pj := p.getD ((i + 1) % p.length) default
      a + pi.x * pj.y - pj.x * pi.y)
    0

/-- Shoelace area of a polygon: half the absolute value of the signed
shoelace sum.  This is the "area (shoelace)" polygon primitive named by the
specification (§2, §8) and is used to state the split area-conservation
property. -/
def shoelaceArea (p : Polygon) : ℚ :=
  |shoelaceSum p| / 2

/-- The loop body of `offsetPolygon` in `geometry.ts` for one vertex
`curr` with neighbours `prev`/`next`: returns the points this vertex
contributes to the offset polygon (none for a degenerate edge, one miter
or averaged point, or a two-point bevel). -/
def miterVertex (prev curr next : Point) (isClockwise : Bool) (offset : ℚ) :
    List Point :=
  let e1 : Point := ⟨curr.x - prev.x, curr.y - prev.y⟩
  let e2 : Point := ⟨next.x - curr.x, next.y - curr.y⟩
  let len1 := Rat.sqrt (e1.x * e1.x + e1.y * e1.y)
  let len2 := Rat.sqrt (e2.x * e2.x + e2.y * e2.y)
  if len1 < 1/10000 ∨ len2 < 1/10000 then
    []  -- degenerate edge, skip
  else
    let u1 : Point := ⟨e1.x / len1, e1.y / len1⟩
    let u2 : Point := ⟨e2.x / len2, e2.y / len2⟩
    let perp1 : Point := if isClockwise then ⟨-u1.y, u1.x⟩ else ⟨u1.y, -u1.x⟩
    let perp2 : Point := if isClockwise then ⟨-u2.y, u2.x⟩ else ⟨u2.y, -u2.x⟩
    let p1 : Point := ⟨prev.x + perp1.x * offset, prev.y + perp1.y * offset⟩
    let p2 : Point := ⟨curr.x + perp1.x * offset, curr.y + perp1.y * offset⟩
    let p3 : Point := ⟨curr.x + perp2.x * offset, curr.y + perp2.y * offset⟩
    let p4 : Point := ⟨next.x + perp2.x * offset, next.y + perp2.y * offset⟩
    let d1 : Point := ⟨p2.x - p1.x, p2.y - p1.y⟩
    let d2 : Point := ⟨p4.x - p3.x, p4.y - p3.y⟩
    let denom := d1.x * d2.y - d1.y * d2.x
    if 1/10000 < |denom| then
      let t := ((p3.x - p1.x) * d2.y - (p3.y - p1.y) * d2.x) / denom
      let inter : Point := ⟨p1.x + t * d1.x, p1.y + t * d1.y⟩
      let dist := Rat.sqrt ((inter.x - curr.x) * (inter.x - curr.x) +
                            (inter.y - curr.y) * (inter.y - curr.y))
      if dist ≤ offset * 10 then [inter] else [p2, p3]
    else
      [⟨(p2.x + p3.x) / 2, (p2.y + p3.y) / 2⟩]

/-- The `offsetPolygon` function from `geometry.ts` (the winding-aware
version with degenerate-edge skip and miter limit): detects winding via the
shoelace sum, then collects the contribution of each vertex in order. -/
def offsetPolygon (polygon : Polygon) (offset : ℚ) : Polygon :=
  if offset = 0 then polygon
  else
    let n := polygon.length
    let isClockwise := shoelaceSum polygon < 0
    (List.range n).foldl
      (fun result i =>
        result ++
          miterVertex (polygon.getD ((i + n - 1) % n) default)
            (polygon.getD i default)
            (polygon.getD ((i + 1) % n) default)
            isClockwise offset)
      []

/-- The min/max bounds record returned by `calculateBounds`. -/
structure Bounds4 where
  minX : ℚ
  minY : ℚ
  maxX : ℚ
  maxY : ℚ
deriving DecidableEq, Repr

/-- The `calculateBounds` function from `geometry.ts`.  The `±Infinity`
initial accumulators are embedded by folding from the first vertex (the
engine only calls it on non-empty vertex sets). -/
def calculateBounds (polygons : List Polygon) : Bounds4 :=
  let pts := polygons.flatMap (fun p => p)
  let p0 := pts.headD default
  pts.foldl
    (fun b p =>
      ⟨min b.minX p.x, min b.minY p.y, max b.maxX p.x, max b.maxY p.y⟩)
    ⟨p0.x, p0.y, p0.x, p0.y⟩

-- Helper lemmas about `Rat.sqrt` as the embedding of `Math.sqrt`.

/-- `Rat.sqrt` is exact on perfect squares of nonnegative rationals. -/
theorem ratSqrt_mul_self (a : ℚ) (ha : 0 ≤ a) : Rat.sqrt (a * a) = a := by
  rw [Rat.sqrt_eq, abs_of_nonneg ha]

/-- The integer square root of `2·d²` never exceeds the `10 × offset`
miter bound (the floor in the numerator/denominator square roots moves the
value by at most a factor of 2 from `d·√2`). -/
theorem ratSqrt_two_sq_le (d : ℚ) (hd : 0 < d) :
    Rat.sqrt (d * d + d * d) ≤ d * 10 := by
  set q : ℚ := d * d + d * d with hq
  have hq0 : 0 < q := by nlinarith
  have hnum : (0 : ℤ) ≤ q.num := Rat.num_nonneg.mpr hq0.le
  have hval : Rat.sqrt q = ((Nat.sqrt q.num.toNat : ℚ)) / ((Nat.sqrt q.den : ℚ)) := by
    rw [Rat.sqrt, Rat.mkRat_eq_div, Int.sqrt]
    norm_num
  set sN : ℕ := Nat.sqrt q.num.toNat with hsN
  set sD : ℕ := Nat.sqrt q.den with hsD
  have hden_pos : 0 < q.den := q.pos
  have hsD_pos : 0 < sD := Nat.sqrt_pos.mpr hden_pos
  -- (sN)² ≤ num and den < 4·(sD)²
  have h1 : (sN * sN : ℕ) ≤ q.num.toNat := Nat.sqrt_le _
  have h2 : q.den < (sD + 1) * (sD + 1) := Nat.lt_succ_sqrt _
  have h4 : q.den < 4 * (sD * sD) := by
    calc q.den < (sD + 1) * (sD + 1) := h2
    _ ≤ 4 * (sD * sD) := by nlinarith
  -- transfer to ℚ
  have hden_ne : ((q.den : ℚ)) ≠ 0 := by positivity
  have hNq : ((q.num.toNat : ℚ)) = q * q.den := by
    have hcast : ((q.num.toNat : ℚ)) = ((q.num : ℚ)) := by
      norm_cast
      exact Int.toNat_of_nonneg hnum
    have h0 := Rat.num_div_den q
    have hmul : (q.num : ℚ) / (q.den : ℚ) * q.den = q * q.den := by rw [h0]
    rw [hcast, ← div_mul_cancel₀ ((q.num : ℚ)) hden_ne]
    exact hmul
  have h1q : ((sN : ℚ)) * sN ≤ q * q.den := by
    calc ((sN : ℚ)) * sN = ((sN * sN : ℕ) : ℚ) := by push_cast; ring
    _ ≤ ((q.num.toNat : ℚ)) := by exact_mod_cast h1
    _ = q * q.den := hNq
  have h4q : ((q.den : ℚ)) < 4 * (sD * sD) := by exact_mod_cast h4
  -- compare the squares of the two sides
  have hsq : ((sN : ℚ)) * sN ≤ (d * 10 * sD) * (d * 10 * sD) := by
    have hdd : (d * d) * q.den = (q / 2) * q.den := by
      rw [hq]; ring
    nlinarith [hq0, hsD_pos, h1q, h4q, q.pos, sq_nonneg ((sD : ℚ))]
  have hsN0 : (0 : ℚ) ≤ (sN : ℚ) := by positivity
  have hrhs0 : (0 : ℚ) ≤ d * 10 * sD := by positivity
  have hle : ((sN : ℚ)) ≤ d * 10 * sD := by nlinarith
  rw [hval]
  rw [div_le_iff₀ (by exact_mod_cast hsD_pos)]
  exact hle

-- The tessellation module (`tessellation.ts`, `types.ts`).

/-- The `position` tag of a piece (`'top' | 'bottom' | 'full'`). -/
inductive PiecePosition
  | top
  | bottom
  | full
deriving DecidableEq, Repr, Inhabited

/-- `TessellationPiece` from `types.ts`.  The declared interface requires a
`gridCol : number` field ("original grid column"); since the piece objects
built by `generateTessellation` may omit the property (leaving it
`undefined`), the field is embedded as `Option ℕ` with `none` standing for
`undefined`. -/
structure TessellationPiece where
  id : String
  polygon : Polygon
  colorIndex : ℤ
  isTriangle : Bool
  row : ℕ
  col : ℕ
  gridCol : Option ℕ
  position : PiecePosition
deriving DecidableEq, Repr, Inhabited

/-- `TessellationConfig` from `types.ts`. -/
structure TessellationConfig where
  rows : ℕ
  cols : ℕ
  squareSize : ℚ
  colors : ℕ
  splitProbability : ℚ
  seamAllowance : ℚ
  offsetAmount : ℚ
  widthVariation : ℚ
  heightVariation : ℚ
  splitAngleVariation : ℚ
  sameColorProbability : ℚ
  colorProbabilities : List ℚ
deriving DecidableEq, Repr

/-- The overall bounding box stored in a `TessellationResult`. -/
structure BoundsWH where
  width : ℚ
  height : ℚ
deriving DecidableEq, Repr

/-- `TessellationResult` from `types.ts`. -/
structure TessellationResult where
  pieces : List TessellationPiece
  config : TessellationConfig
  bounds : BoundsWH
deriving DecidableEq, Repr

/-- The `samePoint` helper inside `sharesEdge` (`tessellation.ts`):
coordinatewise comparison within absolute tolerance 0.01. -/
def samePoint (p1 p2 : Point) : Bool :=
  decide (|p1.x - p2.x| < 1/100 ∧ |p1.y - p2.y| < 1/100)

/-- `sharesEdge` from `tessellation.ts`: counts vertices of `poly1` that
coincide (within tolerance) with some vertex of `poly2`; at least 2 shared
points means edge-adjacent. -/
def sharesEdge (poly1 poly2 : Polygon) : Bool :=
  decide (2 ≤ poly1.countP (fun p1 => poly2.any (fun p2 => samePoint p1 p2)))

/-- The selection loop of `weightedRandomColor`: repeatedly subtract the
current weight from the running random value and return the first color
where it drops to `≤ 0`; if the lists run out, return the source's
fallback (`availableColors[availableColors.length - 1]`). -/
def pickWeighted (fallback : ℕ) : List ℕ → List ℚ → ℚ → ℕ
  | c :: cs, w :: ws, u => if u - w ≤ 0 then c else pickWeighted fallback cs ws (u - w)
  | _, _, _ => fallback

/-- `weightedRandomColor` from `tessellation.ts`.  `u` is the single
`Math.random()` draw the function performs (used either for the uniform
fallback when every weight is zero, or scaled by the total weight).
`colorProbabilities[c] || 0` is embedded as `getD c 0`. -/
def weightedRandomColor (availableColors : List ℕ) (colorProbabilities : List ℚ)
    (u : ℚ) : ℕ :=
  let weights := availableColors.map (fun c => colorProbabilities.getD c 0)
  let totalWeight := weights.sum
  if totalWeight = 0 then
    availableColors.getD (⌊u * availableColors.length⌋).toNat 0
  else
    pickWeighted (availableColors.getD (availableColors.length - 1) 0)
      availableColors weights (u * totalWeight)

/-- The inner `j`-loop of `assignColorsToPolygons`: scan the already
processed pieces in order; for each colored, edge-adjacent one draw a
random number and, when the draw exceeds `sameColorProbability`, mark its
color as forbidden.  Returns the forbidden colors and the advanced
cursor. -/
def forbiddenColors (done : List TessellationPiece) (poly : Polygon)
    (sameColorProbability : ℚ) (r : ℕ → ℚ) (k : ℕ) : List ℤ × ℕ :=
  done.foldl
    (fun acc other =>
      if other.colorIndex = -1 then acc
      else if sharesEdge poly other.polygon then
        (if sameColorProbability < r acc.2 then (other.colorIndex :: acc.1, acc.2 + 1)
         else (acc.1, acc.2 + 1))
      else acc)
    ([], k)

/-- The color choice at the bottom of the `assignColorsToPolygons` loop:
a weighted random pick from the available colors when some are available,
otherwise `Math.floor(Math.random() * numColors)` ignoring adjacency.
`u` is the single draw consumed by either branch. -/
def chooseColor (availableColors : List ℕ) (numColors : ℕ)
    (colorProbabilities : List ℚ) (u : ℚ) : ℤ :=
  if 0 < availableColors.length then
    (weightedRandomColor availableColors colorProbabilities u : ℤ)
  else
    ⌊u * numColors⌋

/-- One iteration of the `assignColorsToPolygons` loop for piece `i`:
collect forbidden colors from the processed prefix, filter the candidate
colors `0..numColors-1`, and assign the chosen color. -/
def assignStep (numColors : ℕ) (sameColorProbability : ℚ) (colorProbabilities : List ℚ)
    (r : ℕ → ℚ) (done : List TessellationPiece) (piece : TessellationPiece) (k : ℕ) :
    TessellationPiece × ℕ :=
  let fk := forbiddenColors done piece.polygon sameColorProbability r k
  let availableColors := (List.range numColors).filter (fun (c : ℕ) => decide ((c : ℤ) ∉ fk.1))
  ({ piece with colorIndex := chooseColor availableColors numColors colorProbabilities (r fk.2) },
    fk.2 + 1)

/-- The outer loop of `assignColorsToPolygons`, processing the list once in
order; `done` is the already-colored prefix. -/
def assignColorsGo (numColors : ℕ) (sameColorProbability : ℚ)
    (colorProbabilities : List ℚ) (r : ℕ → ℚ) :
    List TessellationPiece → List TessellationPiece → ℕ → List TessellationPiece × ℕ
  | done, [], k => (done, k)
  | done, piece :: rest, k =>
    let step := assignStep numColors sameColorProbability colorProbabilities r done piece k
    assignColorsGo numColors sameColorProbability colorProbabilities r
      (done ++ [step.1]) rest step.2

/-- `assignColorsToPolygons` from `tessellation.ts` (the in-place mutation
is embedded as returning the recolored list). -/
def assignColorsToPolygons (pieces : List TessellationPiece) (numColors : ℕ)
    (sameColorProbability : ℚ) (colorProbabilities : List ℚ) (r : ℕ → ℚ) (k : ℕ) :
    List TessellationPiece × ℕ :=
  assignColorsGo numColors sameColorProbability colorProbabilities r [] pieces k

/-- The raw, pre-normalization width samples of `generateRowWidths`:
`baseSize * (1 + (Math.random() * 2 - 1) * variation)` for each column. -/
def rawSizes (n : ℕ) (baseSize variation : ℚ) (r : ℕ → ℚ) (k : ℕ) : List ℚ :=
  (List.range n).map (fun i => baseSize * (1 + (r (k + i) * 2 - 1) * variation))

/-- `generateRowWidths` from `tessellation.ts`: equal widths when
`variation = 0`, otherwise random samples rescaled so the row total is
`cols * baseSize`.  Returns the widths and the advanced cursor. -/
def generateRowWidths (cols : ℕ) (baseSize variation : ℚ) (r : ℕ → ℚ) (k : ℕ) :
    List ℚ × ℕ :=
  if variation = 0 then (List.replicate cols baseSize, k)
  else
    let widths := rawSizes cols baseSize variation r k
    let targetTotal := (cols : ℚ) * baseSize
    let currentTotal := widths.sum
    let scale := targetTotal / currentTotal
    (widths.map (fun w => w * scale), k + cols)

/-- `generateRowHeights` from `tessellation.ts` (same algorithm as
`generateRowWidths`, applied once across all rows). -/
def generateRowHeights (rows : ℕ) (baseSize variation : ℚ) (r : ℕ → ℚ) (k : ℕ) :
    List ℚ × ℕ :=
  if variation = 0 then (List.replicate rows baseSize, k)
  else
    let heights := rawSizes rows baseSize variation r k
    let targetTotal := (rows : ℚ) * baseSize
    let currentTotal := heights.sum
    let scale := targetTotal / currentTotal
    (heights.map (fun h => h * scale), k + rows)

/-- STEP 1 of `generateTessellation`: one `generateRowWidths` call per row. -/
def rowWidthsList (cols : ℕ) (baseSize variation : ℚ) (r : ℕ → ℚ) :
    ℕ → ℕ → List (List ℚ) × ℕ
  | 0, k => ([], k)
  | n + 1, k =>
    let w := generateRowWidths cols baseSize variation r k
    let rest := rowWidthsList cols baseSize variation r n w.2
    (w.1 :: rest.1, rest.2)

/-- The piece identifier strings `r${row}-c${col}-left` etc. -/
def pieceId (row col : ℕ) (suffix : String) : String :=
  "r" ++ toString row ++ "-c" ++ toString col ++ "-" ++ suffix

/-- The inner (per-cell) loop of `generateTessellation` STEP 2 for one row:
walks the row's widths, draws the Bernoulli split trial, and emits one
`full` piece or the two halves from `splitRectangle`.  Arguments mirror the
loop state: remaining widths, `cumulativeX`, grid `col`, sequential
`pieceCol`, random cursor. -/
def buildCells (splitProbability splitAngleVariation : ℚ) (row : ℕ)
    (y height offsetX : ℚ) (r : ℕ → ℚ) :
    List ℚ → ℚ → ℕ → ℕ → ℕ → List TessellationPiece × ℕ
  | [], _, _, _, k => ([], k)
  | width :: ws, cumulativeX, col, pieceCol, k =>
    let x := cumulativeX + offsetX
    let rect := createRectangle x y width height
    if r k < splitProbability then
      let s := splitRectangle rect splitAngleVariation r (k + 1)
      let piece1 : TessellationPiece :=
        { id := pieceId row col "left", polygon := s.1.1, colorIndex := -1,
          isTriangle := decide (splitAngleVariation = 0), row := row,
          col := pieceCol, gridCol := none, position := .top }
      let piece2 : TessellationPiece :=
        { id := pieceId row col "right", polygon := s.1.2, colorIndex := -1,
          isTriangle := decide (splitAngleVariation = 0), row := row,
          col := pieceCol + 1, gridCol := none, position := .bottom }
      let rest := buildCells splitProbability splitAngleVariation row y height offsetX r
        ws (cumulativeX + width) (col + 1) (pieceCol + 2) s.2
      (piece1 :: piece2 :: rest.1, rest.2)
    else
      let piece : TessellationPiece :=
        { id := pieceId row col "full", polygon := rect, colorIndex := -1,
          isTriangle := false, row := row, col := pieceCol, gridCol := none,
          position := .full }
      let rest := buildCells splitProbability splitAngleVariation row y height offsetX r
        ws (cumulativeX + width) (col + 1) (pieceCol + 1) (k + 1)
      (piece :: rest.1, rest.2)

/-- The outer (per-row) loop of `generateTessellation` STEP 2: cumulative
`y`, per-row brick offset `(row % 2) * offsetAmount * squareSize`, and a
fresh `cumulativeX`/`pieceCol` per row. -/
def buildRows (splitProbability splitAngleVariation offsetAmount squareSize : ℚ)
    (heights : List ℚ) (r : ℕ → ℚ) :
    List (List ℚ) → ℕ → ℚ → ℕ → List TessellationPiece × ℕ
  | [], _, _, k => ([], k)
  | widthsRow :: wrest, row, cumulativeY, k =>
    let height := heights.getD row 0
    let offsetX := ((row % 2 : ℕ) : ℚ) * offsetAmount * squareSize
    let cells := buildCells splitProbability splitAngleVariation row cumulativeY height offsetX r
      widthsRow 0 0 0 k
    let rest := buildRows splitProbability splitAngleVariation offsetAmount squareSize heights r
      wrest (row + 1) (cumulativeY + height) cells.2
    (cells.1 ++ rest.1, rest.2)

/-- `generateTessellation` from `tessellation.ts`: widths per row, heights,
piece construction with brick offset and optional splitting, color
assignment, and the union bounding box. -/
def generateTessellation (config : TessellationConfig) (r : ℕ → ℚ) :
    TessellationResult :=
  let ws := rowWidthsList config.cols config.squareSize config.widthVariation r config.rows 0
  let hs := generateRowHeights config.rows config.squareSize config.heightVariation r ws.2
  let built := buildRows config.splitProbability config.splitAngleVariation
    config.offsetAmount config.squareSize hs.1 r ws.1 0 0 hs.2
  let colored := assignColorsToPolygons built.1 config.colors
    config.sameColorProbability config.colorProbabilities r built.2
  let bounds := calculateBounds (colored.1.map (fun p => p.polygon))
  { pieces := colored.1, config := config,
    bounds := ⟨bounds.maxX - bounds.minX, bounds.maxY - bounds.minY⟩ }

/-- `applySeamAllowance` from `tessellation.ts`: identity when the seam
allowance is zero, otherwise every piece's polygon is replaced by its
offset copy and the bounds recomputed. -/
def applySeamAllowance (result : TessellationResult) : TessellationResult :=
  if result.config.seamAllowance = 0 then result
  else
    let piecesWithSeams := result.pieces.map
      (fun piece => { piece with
        polygon := offsetPolygon piece.polygon result.config.seamAllowance })
    let bounds := calculateBounds (piecesWithSeams.map (fun p => p.polygon))
    { result with
      pieces := piecesWithSeams
      bounds := ⟨bounds.maxX - bounds.minX, bounds.maxY - bounds.minY⟩ }

-- C2: width/height conservation.

/-- Summing a list scaled by a constant. -/
theorem sum_map_mul_const (l : List ℚ) (c : ℚ) :
    (l.map (fun w => w * c)).sum = l.sum * c := by
  induction l with
  | nil => simp
  | cons a t ih => simp [ih]; ring

/-- Rescaling a list by `target / sum` makes it sum to `target`. -/
theorem sum_map_rescale (l : List ℚ) (target : ℚ) (h : l.sum ≠ 0) :
    (l.map (fun w => w * (target / l.sum))).sum = target := by
  rw [sum_map_mul_const]
  field_simp

/-- C2: for every `cols ≥ 1`, base size `> 0` and `variation ∈ [0,1]`, the
widths produced by `generateRowWidths` sum to `cols * base` exactly (hence
within any tolerance), for every outcome of the random draws whose
pre-normalization total is nonzero; and the heights produced by
`generateRowHeights` likewise sum to `rows * base`. -/
theorem generateRow_sizes_sum (cols rows : ℕ) (base wvar hvar : ℚ) (r : ℕ → ℚ)
    (kw kh : ℕ) (hcols : 1 ≤ cols) (hrows : 1 ≤ rows) (hbase : 0 < base)
    (hwv0 : 0 ≤ wvar) (hwv1 : wvar ≤ 1) (hhv0 : 0 ≤ hvar) (hhv1 : hvar ≤ 1)
    (hw : (rawSizes cols base wvar r kw).sum ≠ 0)
    (hh : (rawSizes rows base hvar r kh).sum ≠ 0) :
    (generateRowWidths cols base wvar r kw).1.sum = cols * base ∧
    (generateRowHeights rows base hvar r kh).1.sum = rows * base := by
  constructor
  · rw [generateRowWidths]
    by_cases h0 : wvar = 0
    · simp [h0, List.sum_replicate, nsmul_eq_mul]
    · simp only [h0, if_false]
      exact sum_map_rescale _ _ hw
  · rw [generateRowHeights]
    by_cases h0 : hvar = 0
    · simp [h0, List.sum_replicate, nsmul_eq_mul]
    · simp only [h0, if_false]
      exact sum_map_rescale _ _ hh

/-- Witness for C2 at `cols = 3`, `rows = 2`, `base = 50`,
`wvar = hvar = 1/2`, constant draw `1/2`. -/
theorem generateRow_sizes_sum_witness :
    (rawSizes 3 50 (1/2) (fun _ => 1/2) 0).sum ≠ 0 ∧
    (rawSizes 2 50 (1/2) (fun _ => 1/2) 0).sum ≠ 0 ∧
    (generateRowWidths 3 50 (1/2) (fun _ => 1/2) 0).1.sum = 3 * 50 ∧
    (generateRowHeights 2 50 (1/2) (fun _ => 1/2) 0).1.sum = 2 * 50 := by
  have hw : (rawSizes 3 50 (1/2) (fun _ => 1/2) 0).sum ≠ 0 := by
    norm_num [rawSizes, List.range_succ]
  have hh : (rawSizes 2 50 (1/2) (fun _ => 1/2) 0).sum ≠ 0 := by
    norm_num [rawSizes, List.range_succ]
  have := generateRow_sizes_sum 3 2 50 (1/2) (1/2) (fun _ => 1/2) 0 0
    (by norm_num) (by norm_num) (by norm_num) (by norm_num) (by norm_num)
    (by norm_num) (by norm_num) hw hh
  exact ⟨hw, hh, by exact_mod_cast this.1, by exact_mod_cast this.2⟩

-- C4: split area conservation.

/-- Closed form of the shoelace sum of a triangle. -/
theorem shoelaceSum_three (a b c : Point) :
    shoelaceSum [a, b, c] =
      a.x * b.y - b.x * a.y + (b.x * c.y - c.x * b.y) + (c.x * a.y - a.x * c.y) := by
  show (List.range 3).foldl _ 0 = _
  norm_num [List.range_succ, List.getD]
  ring

/-- Closed form of the shoelace sum of a quadrilateral. -/
theorem shoelaceSum_four (a b c d : Point) :
    shoelaceSum [a, b, c, d] =
      a.x * b.y - b.x * a.y + (b.x * c.y - c.x * b.y) + (c.x * d.y - d.x * c.y) +
        (d.x * a.y - a.x * d.y) := by
  show (List.range 4).foldl _ 0 = _
  norm_num [List.range_succ, List.getD]
  ring

/-- Two nonnegative half-absolute-values summing to 2500. -/
theorem halves_to_2500 (u v : ℚ) (hu : 0 ≤ u) (hv : 0 ≤ v) (huv : u + v = 5000) :
    |u| / 2 + |v| / 2 = 2500 := by
  rw [abs_of_nonneg hu, abs_of_nonneg hv]
  linarith

/-- C4: splitting any 50×50 rectangle with any `angleVariation ∈ [0,1]`
conserves the total shoelace area: the two output polygons' areas sum to
2500 exactly (hence within 1e-6), for every outcome of the random draws. -/
theorem splitRectangle_area_conservation (x y av : ℚ) (r : ℕ → ℚ) (k : ℕ)
    (hav0 : 0 ≤ av) (hav1 : av ≤ 1) :
    shoelaceArea ((splitRectangle (createRectangle x y 50 50) av r k).1.1) +
      shoelaceArea ((splitRectangle (createRectangle x y 50 50) av r k).1.2) = 2500 := by
  by_cases hz : av = 0
  · subst hz
    by_cases hu : r k < 1/2
    · simp only [splitRectangle, createRectangle, List.getD_cons_zero, List.getD_cons_succ,
        if_pos (rfl : (0:ℚ) = 0), if_true, if_pos hu]
      rw [shoelaceArea, shoelaceArea, shoelaceSum_three, shoelaceSum_three]
      apply halves_to_2500 <;> dsimp <;> ring_nf <;> linarith
    · simp only [splitRectangle, createRectangle, List.getD_cons_zero, List.getD_cons_succ,
        if_pos (rfl : (0:ℚ) = 0), if_true, if_neg hu]
      rw [shoelaceArea, shoelaceArea, shoelaceSum_three, shoelaceSum_three]
      apply halves_to_2500 <;> dsimp <;> ring_nf <;> linarith
  · simp only [splitRectangle, createRectangle, List.getD_cons_zero, List.getD_cons_succ,
      if_neg hz]
    rw [shoelaceArea, shoelaceArea, shoelaceSum_four, shoelaceSum_four]
    set tT := max (1/10 : ℚ) (min (9/10) (1/2 + (r k - 1/2) * (av * (8/10)))) with htT
    set bT := max (1/10 : ℚ) (min (9/10) (1/2 + (r (k+1) - 1/2) * (av * (8/10)))) with hbT
    have htT1 : (1/10 : ℚ) ≤ tT := le_max_left _ _
    have hbT1 : (1/10 : ℚ) ≤ bT := le_max_left _ _
    have htT9 : tT ≤ 9/10 := max_le (by norm_num) (min_le_left _ _)
    have hbT9 : bT ≤ 9/10 := max_le (by norm_num) (min_le_left _ _)
    apply halves_to_2500 <;> dsimp <;> ring_nf <;> nlinarith [htT1, hbT1, htT9, hbT9]

/-- Witness for C4 at `x = y = 0`, `angleVariation = 1/2`, constant draw 0. -/
theorem splitRectangle_area_conservation_witness :
    (0 : ℚ) ≤ 1/2 ∧ (1/2 : ℚ) ≤ 1 ∧
      shoelaceArea ((splitRectangle (createRectangle 0 0 50 50) (1/2) (fun _ => 0) 0).1.1) +
        shoelaceArea ((splitRectangle (createRectangle 0 0 50 50) (1/2) (fun _ => 0) 0).1.2)
        = 2500 :=
  ⟨by norm_num, by norm_num,
    splitRectangle_area_conservation 0 0 (1/2) (fun _ => 0) 0 (by norm_num) (by norm_num)⟩

-- C7/C8: the two branches of splitRectangle.

/-- Number of vertices of `A` that also occur (exactly) among the vertices
of `B`; "shared vertices" in the triangle-scenario property. -/
def sharedVertexCount (A B : Polygon) : ℕ :=
  A.countP (fun p => decide (p ∈ B))

/-- C7: splitting a rectangle (corners in order top-left, top-right,
bottom-right, bottom-left, positive width and height) with
`angleVariation = 0` yields two 3-vertex polygons sharing exactly one
diagonal (exactly 2 shared vertices); the draw `r k < 1/2` selects the
top-left→bottom-right diagonal, otherwise the top-right→bottom-left one
(a uniform choice between the two for a uniform draw on `[0,1)`). -/
theorem splitRectangle_diagonal (x y w h : ℚ) (r : ℕ → ℚ) (k : ℕ)
    (hw : 0 < w) (hh : 0 < h) :
    (r k < 1/2 →
      (splitRectangle (createRectangle x y w h) 0 r k).1 =
        ([⟨x, y⟩, ⟨x + w, y⟩, ⟨x + w, y + h⟩], [⟨x, y⟩, ⟨x + w, y + h⟩, ⟨x, y + h⟩])) ∧
    (¬ r k < 1/2 →
      (splitRectangle (createRectangle x y w h) 0 r k).1 =
        ([⟨x, y⟩, ⟨x + w, y⟩, ⟨x, y + h⟩], [⟨x + w, y⟩, ⟨x + w, y + h⟩, ⟨x, y + h⟩])) ∧
    (splitRectangle (createRectangle x y w h) 0 r k).1.1.length = 3 ∧
    (splitRectangle (createRectangle x y w h) 0 r k).1.2.length = 3 ∧
    sharedVertexCount (splitRectangle (createRectangle x y w h) 0 r k).1.1
      (splitRectangle (createRectangle x y w h) 0 r k).1.2 = 2 := by
  have hxw : ¬ (x + w = x) := by intro hc; nlinarith
  have hxw' : ¬ (x = x + w) := by intro hc; nlinarith
  have hyh : ¬ (y + h = y) := by intro hc; nlinarith
  have hyh' : ¬ (y = y + h) := by intro hc; nlinarith
  by_cases hu : r k < 1/2
  · have hsplit : (splitRectangle (createRectangle x y w h) 0 r k).1 =
        ([⟨x, y⟩, ⟨x + w, y⟩, ⟨x + w, y + h⟩], [⟨x, y⟩, ⟨x + w, y + h⟩, ⟨x, y + h⟩]) := by
      simp only [splitRectangle, createRectangle, List.getD_cons_zero, List.getD_cons_succ,
        if_pos (rfl : (0:ℚ) = 0), if_true, if_pos hu]
    refine ⟨fun _ => hsplit, fun hc => absurd hu hc, ?_, ?_, ?_⟩
    · rw [hsplit]; rfl
    · rw [hsplit]; rfl
    · rw [hsplit]
      simp [sharedVertexCount, List.countP_cons, Point.mk.injEq, hxw, hxw', hyh, hyh']
  · have hsplit : (splitRectangle (createRectangle x y w h) 0 r k).1 =
        ([⟨x, y⟩, ⟨x + w, y⟩, ⟨x, y + h⟩], [⟨x + w, y⟩, ⟨x + w, y + h⟩, ⟨x, y + h⟩]) := by
      simp only [splitRectangle, createRectangle, List.getD_cons_zero, List.getD_cons_succ,
        if_pos (rfl : (0:ℚ) = 0), if_true, if_neg hu]
    refine ⟨fun hc => absurd hc hu, fun _ => hsplit, ?_, ?_, ?_⟩
    · rw [hsplit]; rfl
    · rw [hsplit]; rfl
    · rw [hsplit]
      simp [sharedVertexCount, List.countP_cons, Point.mk.injEq, hxw, hxw', hyh, hyh']

/-- Witness for C7 at the unit square with constant draw 0. -/
theorem splitRectangle_diagonal_witness :
    (0:ℚ) < 50 ∧
    sharedVertexCount (splitRectangle (createRectangle 0 0 50 50) 0 (fun _ => 0) 0).1.1
      (splitRectangle (createRectangle 0 0 50 50) 0 (fun _ => 0) 0).1.2 = 2 :=
  ⟨by norm_num,
    (splitRectangle_diagonal 0 0 50 50 (fun _ => 0) 0 (by norm_num) (by norm_num)).2.2.2.2⟩

/-- C8: splitting with `angleVariation > 0` samples the top and bottom cut
fractions independently as `0.5 + (u - 0.5) * (angleVariation * 0.8)` from
two consecutive draws, clamps each to `[0.1, 0.9]` before converting to an
absolute x-coordinate, and returns
`left = [top-left, topCut, bottomCut, bottom-left]` and
`right = [topCut, top-right, bottom-right, bottomCut]`; for a positive
width each cut abscissa lies between 10% and 90% of the width from the
left edge. -/
theorem splitRectangle_angled (x y w h av : ℚ) (r : ℕ → ℚ) (k : ℕ) (hav : 0 < av) :
    (splitRectangle (createRectangle x y w h) av r k).1 =
      ([⟨x, y⟩,
        ⟨x + w * max (1/10) (min (9/10) (1/2 + (r k - 1/2) * (av * (8/10)))), y⟩,
        ⟨x + w * max (1/10) (min (9/10) (1/2 + (r (k+1) - 1/2) * (av * (8/10)))), y + h⟩,
        ⟨x, y + h⟩],
       [⟨x + w * max (1/10) (min (9/10) (1/2 + (r k - 1/2) * (av * (8/10)))), y⟩,
        ⟨x + w, y⟩, ⟨x + w, y + h⟩,
        ⟨x + w * max (1/10) (min (9/10) (1/2 + (r (k+1) - 1/2) * (av * (8/10)))), y + h⟩]) ∧
    (0 < w →
      x + w / 10 ≤ x + w * max (1/10) (min (9/10) (1/2 + (r k - 1/2) * (av * (8/10)))) ∧
      x + w * max (1/10) (min (9/10) (1/2 + (r k - 1/2) * (av * (8/10)))) ≤ x + 9 * w / 10 ∧
      x + w / 10 ≤ x + w * max (1/10) (min (9/10) (1/2 + (r (k+1) - 1/2) * (av * (8/10)))) ∧
      x + w * max (1/10) (min (9/10) (1/2 + (r (k+1) - 1/2) * (av * (8/10)))) ≤ x + 9 * w / 10) := by
  constructor
  · simp only [splitRectangle, createRectangle, List.getD_cons_zero, List.getD_cons_succ,
      if_neg hav.ne']
    norm_num [Point.mk.injEq]
  · intro hw
    set tT := max (1/10 : ℚ) (min (9/10) (1/2 + (r k - 1/2) * (av * (8/10)))) with htT
    set bT := max (1/10 : ℚ) (min (9/10) (1/2 + (r (k+1) - 1/2) * (av * (8/10)))) with hbT
    have htT1 : (1/10 : ℚ) ≤ tT := le_max_left _ _
    have hbT1 : (1/10 : ℚ) ≤ bT := le_max_left _ _
    have htT9 : tT ≤ 9/10 := max_le (by norm_num) (min_le_left _ _)
    have hbT9 : bT ≤ 9/10 := max_le (by norm_num) (min_le_left _ _)
    refine ⟨by nlinarith, by nlinarith, by nlinarith, by nlinarith⟩

/-- Witness for C8 at the 50×50 square with constant draw 1/2,
`angleVariation = 1`. -/
theorem splitRectangle_angled_witness :
    (0:ℚ) < 1 ∧ (0:ℚ) < 50 ∧
    (splitRectangle (createRectangle 0 0 50 50) 1 (fun _ => 1/2) 0).1.1 =
      [⟨0, 0⟩, ⟨25, 0⟩, ⟨25, 50⟩, ⟨0, 50⟩] := by
  refine ⟨by norm_num, by norm_num, ?_⟩
  have := (splitRectangle_angled 0 0 50 50 1 (fun _ => 1/2) 0 (by norm_num)).1
  rw [this]
  norm_num

-- C9: the color-choice mechanism.

/-- `getD` at an in-range index is a member of the list. -/
theorem getD_mem_of_lt (l : List ℕ) (i : ℕ) (h : i < l.length) : l.getD i 0 ∈ l := by
  rw [List.getD_eq_getElem l 0 h]
  exact List.getElem_mem h

/-- The floor-of-scaled-draw index is in range for a draw in `[0,1)`. -/
theorem floor_mul_lt (u : ℚ) (n : ℕ) (h0 : 0 ≤ u) (h1 : u < 1) (hn : 1 ≤ n) :
    (⌊u * n⌋).toNat < n := by
  have hn0 : (0:ℚ) < n := by exact_mod_cast hn
  have hf : ⌊u * n⌋ < (n : ℤ) :=
    Int.floor_lt.mpr (by push_cast; nlinarith [mul_lt_mul_of_pos_right h1 hn0])
  have h2 : 0 ≤ ⌊u * n⌋ := Int.floor_nonneg.mpr (by positivity)
  omega

/-- `pickWeighted` only ever returns a scanned color or the fallback. -/
theorem pickWeighted_mem (S : List ℕ) (fb : ℕ) (cs : List ℕ) (ws : List ℚ) (u : ℚ)
    (hcs : ∀ c ∈ cs, c ∈ S) (hfb : fb ∈ S) : pickWeighted fb cs ws u ∈ S := by
  induction cs generalizing ws u with
  | nil => cases ws <;> simpa [pickWeighted] using hfb
  | cons c cs ih =>
    cases ws with
    | nil => simpa [pickWeighted] using hfb
    | cons w ws =>
      rw [pickWeighted]
      by_cases hle : u - w ≤ 0
      · simpa [hle] using hcs c (by simp)
      · simp only [hle, if_false]
        exact ih ws (u - w) (fun d hd => hcs d (by simp [hd]))

/-- `weightedRandomColor` returns a member of a non-empty candidate list
for any draw in `[0,1)`. -/
theorem weightedRandomColor_mem (cs : List ℕ) (probs : List ℚ) (u : ℚ)
    (hne : cs ≠ []) (hu0 : 0 ≤ u) (hu1 : u < 1) :
    weightedRandomColor cs probs u ∈ cs := by
  have hlen : 1 ≤ cs.length := by
    cases cs with
    | nil => exact absurd rfl hne
    | cons a t => simp
  rw [weightedRandomColor]
  by_cases ht : ((cs.map fun c => probs.getD c 0).sum) = 0
  · simp only [ht, if_pos]
    exact getD_mem_of_lt cs _ (floor_mul_lt u cs.length hu0 hu1 hlen)
  · simp only [ht, if_neg, if_false]
    exact pickWeighted_mem cs _ cs _ _ (fun c hc => hc)
      (getD_mem_of_lt cs _ (by omega))

/-- When every candidate's weight is zero, `weightedRandomColor` reduces to
the uniform index formula. -/
theorem weightedRandomColor_uniform (cs : List ℕ) (probs : List ℚ) (u : ℚ)
    (hz : ∀ c ∈ cs, probs.getD c 0 = 0) :
    weightedRandomColor cs probs u = cs.getD (⌊u * cs.length⌋).toNat 0 := by
  have ht : ((cs.map fun c => probs.getD c 0).sum) = 0 := by
    apply List.sum_eq_zero
    intro x hx
    rcases List.mem_map.mp hx with ⟨c, hc, rfl⟩
    exact hz c hc
  rw [weightedRandomColor]
  simp only [ht, if_pos]

/-- A singleton candidate list is always chosen, whatever the weights. -/
theorem weightedRandomColor_singleton (c : ℕ) (probs : List ℚ) (u : ℚ)
    (hu0 : 0 ≤ u) (hu1 : u < 1) :
    weightedRandomColor [c] probs u = c := by
  rw [weightedRandomColor]
  by_cases ht : (([c].map fun d => probs.getD d 0).sum) = 0
  · simp only [ht, if_pos]
    have h := floor_mul_lt u ([c] : List ℕ).length hu0 hu1 (by norm_num)
    have hl : ([c] : List ℕ).length = 1 := rfl
    rw [hl] at h
    have h0 : (⌊u * (([c] : List ℕ).length : ℚ)⌋).toNat = 0 := by
      rw [hl]; omega
    rw [h0]
    rfl
  · have ht' : ¬ ([probs.getD c 0] : List ℚ).sum = 0 := by simpa using ht
    simp only [List.map_cons, List.map_nil, ht', if_neg, if_false]
    rw [pickWeighted]
    split <;> simp [pickWeighted]

/-- The chosen color is always a valid color index: nonnegative, and below
`numColors` whenever the candidates are. -/
theorem chooseColor_range (available : List ℕ) (numColors : ℕ) (probs : List ℚ)
    (u : ℚ) (hu0 : 0 ≤ u) (hu1 : u < 1) (hnc : 1 ≤ numColors)
    (hsub : ∀ c ∈ available, c < numColors) :
    0 ≤ chooseColor available numColors probs u ∧
      chooseColor available numColors probs u < numColors := by
  rw [chooseColor]
  by_cases hne : 0 < available.length
  · simp only [hne, if_pos]
    have hmem := weightedRandomColor_mem available probs u
      (by intro hc; rw [hc] at hne; simp at hne) hu0 hu1
    have := hsub _ hmem
    constructor
    · positivity
    · exact_mod_cast this
  · simp only [hne, if_neg, if_false]
    constructor
    · exact Int.floor_nonneg.mpr (by positivity)
    · have := floor_mul_lt u numColors hu0 hu1 hnc
      have h2 : 0 ≤ ⌊u * numColors⌋ := Int.floor_nonneg.mpr (by positivity)
      omega

/-- C9: the color choice for a piece.  With a non-empty candidate set the
assigned color is `weightedRandomColor` over the candidates (and is one of
the candidates); when every candidate weight is 0, `weightedRandomColor`
degenerates to the uniform pick among candidates; with an empty candidate
set the fallback is a uniform color over all `numColors` colors; and in
every case a valid nonnegative color is assigned (below `numColors`
whenever the candidates are) — no error path exists. -/
theorem chooseColor_spec (available : List ℕ) (numColors : ℕ) (probs : List ℚ)
    (u : ℚ) (hu0 : 0 ≤ u) (hu1 : u < 1) (hnc : 1 ≤ numColors) :
    (available ≠ [] →
      chooseColor available numColors probs u =
        (weightedRandomColor available probs u : ℤ) ∧
      weightedRandomColor available probs u ∈ available) ∧
    ((∀ c ∈ available, probs.getD c 0 = 0) →
      weightedRandomColor available probs u =
        available.getD (⌊u * available.length⌋).toNat 0) ∧
    (available = [] →
      chooseColor available numColors probs u = ⌊u * numColors⌋) ∧
    0 ≤ chooseColor available numColors probs u ∧
    ((∀ c ∈ available, c < numColors) →
      chooseColor available numColors probs u < numColors) := by
  refine ⟨?_, weightedRandomColor_uniform available probs u, ?_, ?_, ?_⟩
  · intro hne
    have hlen : 0 < available.length := List.length_pos.mpr hne
    constructor
    · rw [chooseColor]
      simp [hlen]
    · exact weightedRandomColor_mem available probs u hne hu0 hu1
  · intro he
    subst he
    rw [chooseColor]
    simp
  · rw [chooseColor]
    by_cases hlen : 0 < available.length
    · simp only [hlen, if_pos]
      positivity
    · simp only [hlen, if_neg, if_false]
      exact Int.floor_nonneg.mpr (by positivity)
  · intro hsub
    exact (chooseColor_range available numColors probs u hu0 hu1 hnc hsub).2

/-- Witness for C9 at candidates `[0, 1]`, two colors, weights `[50, 50]`,
draw `1/2`. -/
theorem chooseColor_spec_witness :
    (0:ℚ) ≤ 1/2 ∧ (1/2:ℚ) < 1 ∧ (1 ≤ 2) ∧
    chooseColor [0, 1] 2 [50, 50] (1/2) = (weightedRandomColor [0, 1] [50, 50] (1/2) : ℤ) ∧
    weightedRandomColor [0, 1] [50, 50] (1/2) ∈ [0, 1] ∧
    0 ≤ chooseColor [0, 1] 2 [50, 50] (1/2) ∧
    chooseColor [0, 1] 2 [50, 50] (1/2) < 2 := by
  have h := chooseColor_spec [0, 1] 2 [50, 50] (1/2) (by norm_num) (by norm_num) (by norm_num)
  have h1 := h.1 (by simp)
  refine ⟨by norm_num, by norm_num, by norm_num, h1.1, h1.2, h.2.2.2.1,
    h.2.2.2.2 (by intro c hc; simp at hc; omega)⟩

-- C6: applySeamAllowance preserves piece identity/metadata.

/-- C6: `applySeamAllowance` returns the input unchanged when the seam
allowance is 0; otherwise it returns a result with the same configuration
whose piece list is, elementwise and in the same order, the input piece
with only its polygon replaced by `offsetPolygon` of it, and with the
bounds recomputed from the offset polygons.  (The embedding is purely
functional: the input `res` and its pieces are values and cannot be
mutated, matching the source's construction of fresh piece objects.) -/
theorem applySeamAllowance_spec (res : TessellationResult) :
    (res.config.seamAllowance = 0 → applySeamAllowance res = res) ∧
    (applySeamAllowance res).config = res.config ∧
    (applySeamAllowance res).pieces = res.pieces.map (fun piece =>
      { piece with polygon :=
          if res.config.seamAllowance = 0 then piece.polygon
          else offsetPolygon piece.polygon res.config.seamAllowance }) ∧
    (res.config.seamAllowance ≠ 0 →
      (applySeamAllowance res).bounds =
        ⟨(calculateBounds ((applySeamAllowance res).pieces.map (fun p => p.polygon))).maxX -
            (calculateBounds ((applySeamAllowance res).pieces.map (fun p => p.polygon))).minX,
          (calculateBounds ((applySeamAllowance res).pieces.map (fun p => p.polygon))).maxY -
            (calculateBounds ((applySeamAllowance res).pieces.map (fun p => p.polygon))).minY⟩) := by
  by_cases h0 : res.config.seamAllowance = 0
  · have hmap : (fun (piece : TessellationPiece) =>
        { piece with polygon :=
            if res.config.seamAllowance = 0 then piece.polygon
            else offsetPolygon piece.polygon res.config.seamAllowance }) =
        (fun piece => piece) := by
      funext piece
      simp [h0]
    refine ⟨fun _ => by rw [applySeamAllowance]; simp [h0], ?_, ?_, fun hc => absurd h0 hc⟩
    · rw [applySeamAllowance]
      simp [h0]
    · rw [applySeamAllowance, hmap]
      simp [h0]
  · have happ : applySeamAllowance res =
        { res with
          pieces := res.pieces.map (fun piece =>
            { piece with polygon := offsetPolygon piece.polygon res.config.seamAllowance })
          bounds :=
            ⟨(calculateBounds ((res.pieces.map (fun piece =>
                { piece with polygon := offsetPolygon piece.polygon res.config.seamAllowance })).map
                  (fun p => p.polygon))).maxX -
              (calculateBounds ((res.pieces.map (fun piece =>
                { piece with polygon := offsetPolygon piece.polygon res.config.seamAllowance })).map
                  (fun p => p.polygon))).minX,
              (calculateBounds ((res.pieces.map (fun piece =>
                { piece with polygon := offsetPolygon piece.polygon res.config.seamAllowance })).map
                  (fun p => p.polygon))).maxY -
              (calculateBounds ((res.pieces.map (fun piece =>
                { piece with polygon := offsetPolygon piece.polygon res.config.seamAllowance })).map
                  (fun p => p.polygon))).minY⟩ } := by
      rw [applySeamAllowance]
      simp [h0]
    refine ⟨fun hc => absurd hc h0, ?_, ?_, ?_⟩
    · rw [happ]
    · rw [happ]
      simp [h0]
    · intro _
      rw [happ]

/-- Witness for C6: a zero seam allowance returns the result unchanged. -/
theorem applySeamAllowance_spec_witness :
    applySeamAllowance
      { pieces := [], config := ⟨1, 1, 50, 2, 0, 0, 0, 0, 0, 0, 0, [50, 50]⟩,
        bounds := ⟨0, 0⟩ } =
      { pieces := [], config := ⟨1, 1, 50, 2, 0, 0, 0, 0, 0, 0, 0, [50, 50]⟩,
        bounds := ⟨0, 0⟩ } :=
  (applySeamAllowance_spec _).1 rfl


-- C1: offsetting an axis-aligned rectangle.

/-- Miter construction at the top-left corner of a counterclockwise
axis-aligned rectangle: the offset vertex is the plain orthogonal
expansion. -/
theorem miter_corner_TL (x y w h d : ℚ) (hw : 1/10000 ≤ w) (hh : 1/10000 ≤ h)
    (hwh : 1/10000 < w * h) (hd : 0 < d) :
    miterVertex ⟨x, y + h⟩ ⟨x, y⟩ ⟨x + w, y⟩ false d = [⟨x - d, y - d⟩] := by
  have hw0 : (0:ℚ) < w := by linarith
  have hh0 : (0:ℚ) < h := by linarith
  have hs1 : Rat.sqrt ((x - x) * (x - x) + (y - (y + h)) * (y - (y + h))) = h := by
    rw [show (x - x) * (x - x) + (y - (y + h)) * (y - (y + h)) = h * h by ring]
    exact ratSqrt_mul_self h hh0.le
  have hs2 : Rat.sqrt ((x + w - x) * (x + w - x) + (y - y) * (y - y)) = w := by
    rw [show (x + w - x) * (x + w - x) + (y - y) * (y - y) = w * w by ring]
    exact ratSqrt_mul_self w hw0.le
  have q1 : (y - (y + h)) / h = -1 := by field_simp
  have q2 : (x - x) / h = 0 := by rw [sub_self, zero_div]
  have q3 : (x + w - x) / w = 1 := by rw [add_sub_cancel_left]; exact div_self hw0.ne'
  have q4 : (y - y) / w = 0 := by rw [sub_self, zero_div]
  rw [miterVertex]
  simp only [Bool.false_eq_true, if_false, hs1, hs2, q1, q2, q3, q4, neg_zero, neg_mul,
    one_mul, zero_mul, mul_zero, add_zero, zero_sub, sub_self, sub_zero, zero_div,
    mul_one, neg_neg, sub_neg_eq_add, mul_neg]
  norm_num
  simp only [ratSqrt_mul_self h hh0.le, ratSqrt_mul_self w hw0.le, neg_div,
    div_self hh0.ne', div_self hw0.ne', one_mul, neg_mul, neg_neg, mul_one]
  norm_num
  have cond1 : ¬ (h < 1/10000 ∨ w < 1/10000) := by push_neg; exact ⟨hh, hw⟩
  have cond2 : (1:ℚ)/10000 < |h * w| := by
    rw [abs_of_pos (by positivity)]
    nlinarith
  have qq : (-d - h) * w / (h * w) * h = -d - h := by
    field_simp
    ring
  rw [if_neg cond1, if_pos cond2, qq]
  rw [show y + h + (-d - h) - y = -d by ring]
  rw [show d * d + -d * -d = d * d + d * d by ring]
  rw [if_pos (ratSqrt_two_sq_le d hd)]
  norm_num [Point.mk.injEq]
  constructor <;> ring

/-- Miter construction at the top-right corner. -/
theorem miter_corner_TR (x y w h d : ℚ) (hw : 1/10000 ≤ w) (hh : 1/10000 ≤ h)
    (hwh : 1/10000 < w * h) (hd : 0 < d) :
    miterVertex ⟨x, y⟩ ⟨x + w, y⟩ ⟨x + w, y + h⟩ false d = [⟨x + w + d, y - d⟩] := by
  have hw0 : (0:ℚ) < w := by linarith
  have hh0 : (0:ℚ) < h := by linarith
  have hs1 : Rat.sqrt ((x + w - x) * (x + w - x) + (y - y) * (y - y)) = w := by
    rw [show (x + w - x) * (x + w - x) + (y - y) * (y - y) = w * w by ring]
    exact ratSqrt_mul_self w hw0.le
  have hs2 : Rat.sqrt ((x + w - (x + w)) * (x + w - (x + w)) + (y + h - y) * (y + h - y)) = h := by
    rw [show (x + w - (x + w)) * (x + w - (x + w)) + (y + h - y) * (y + h - y) = h * h by ring]
    exact ratSqrt_mul_self h hh0.le
  have q1 : (x + w - x) / w = 1 := by rw [add_sub_cancel_left]; exact div_self hw0.ne'
  have q2 : (y - y) / w = 0 := by rw [sub_self, zero_div]
  have q3 : (x + w - (x + w)) / h = 0 := by rw [sub_self, zero_div]
  have q4 : (y + h - y) / h = 1 := by rw [add_sub_cancel_left]; exact div_self hh0.ne'
  rw [miterVertex]
  simp only [Bool.false_eq_true, if_false, hs1, hs2, q1, q2, q3, q4, neg_zero, neg_mul,
    one_mul, zero_mul, mul_zero, add_zero, zero_sub, sub_self, sub_zero, zero_div,
    mul_one, neg_neg, sub_neg_eq_add, mul_neg]
  norm_num
  simp only [ratSqrt_mul_self h hh0.le, ratSqrt_mul_self w hw0.le, neg_div,
    div_self hh0.ne', div_self hw0.ne', one_mul, neg_mul, neg_neg, mul_one]
  norm_num
  have cond1 : ¬ (w < 1/10000 ∨ h < 1/10000) := by push_neg; exact ⟨hw, hh⟩
  have cond2 : (1:ℚ)/10000 < |w * h| := by
    rw [abs_of_pos (by positivity)]
    linarith
  have qq : (x + w + d - x) * h / (w * h) * w = w + d := by
    field_simp
    ring
  rw [if_neg cond1, if_pos cond2, qq]
  rw [show w + d - w = d by ring]
  rw [if_pos (ratSqrt_two_sq_le d hd)]
  norm_num [Point.mk.injEq]
  constructor <;> ring

/-- Miter construction at the bottom-right corner. -/
theorem miter_corner_BR (x y w h d : ℚ) (hw : 1/10000 ≤ w) (hh : 1/10000 ≤ h)
    (hwh : 1/10000 < w * h) (hd : 0 < d) :
    miterVertex ⟨x + w, y⟩ ⟨x + w, y + h⟩ ⟨x, y + h⟩ false d = [⟨x + w + d, y + h + d⟩] := by
  have hw0 : (0:ℚ) < w := by linarith
  have hh0 : (0:ℚ) < h := by linarith
  have hs1 : Rat.sqrt ((x + w - (x + w)) * (x + w - (x + w)) + (y + h - y) * (y + h - y)) = h := by
    rw [show (x + w - (x + w)) * (x + w - (x + w)) + (y + h - y) * (y + h - y) = h * h by ring]
    exact ratSqrt_mul_self h hh0.le
  have hs2 : Rat.sqrt ((x - (x + w)) * (x - (x + w)) + (y + h - (y + h)) * (y + h - (y + h))) = w := by
    rw [show (x - (x + w)) * (x - (x + w)) + (y + h - (y + h)) * (y + h - (y + h)) = w * w by ring]
    exact ratSqrt_mul_self w hw0.le
  have q1 : (x + w - (x + w)) / h = 0 := by rw [sub_self, zero_div]
  have q2 : (y + h - y) / h = 1 := by rw [add_sub_cancel_left]; exact div_self hh0.ne'
  have q3 : (x - (x + w)) / w = -1 := by field_simp
  have q4 : (y + h - (y + h)) / w = 0 := by rw [sub_self, zero_div]
  rw [miterVertex]
  simp only [Bool.false_eq_true, if_false, hs1, hs2, q1, q2, q3, q4, neg_zero, neg_mul,
    one_mul, zero_mul, mul_zero, add_zero, zero_sub, sub_self, sub_zero, zero_div,
    mul_one, neg_neg, sub_neg_eq_add, mul_neg]
  norm_num
  simp only [ratSqrt_mul_self h hh0.le, ratSqrt_mul_self w hw0.le, neg_div,
    div_self hh0.ne', div_self hw0.ne', one_mul, neg_mul, neg_neg, mul_one]
  norm_num
  have cond1 : ¬ (h < 1/10000 ∨ w < 1/10000) := by push_neg; exact ⟨hh, hw⟩
  have cond2 : (1:ℚ)/10000 < |h * w| := by
    rw [abs_of_pos (by positivity)]
    nlinarith
  have qq : (y + h + d - y) * w / (h * w) * h = h + d := by
    field_simp
    ring
  rw [if_neg cond1, if_pos cond2, qq]
  rw [show h + d - h = d by ring]
  rw [if_pos (ratSqrt_two_sq_le d hd)]
  norm_num [Point.mk.injEq]
  ring

/-- Miter construction at the bottom-left corner. -/
theorem miter_corner_BL (x y w h d : ℚ) (hw : 1/10000 ≤ w) (hh : 1/10000 ≤ h)
    (hwh : 1/10000 < w * h) (hd : 0 < d) :
    miterVertex ⟨x + w, y + h⟩ ⟨x, y + h⟩ ⟨x, y⟩ false d = [⟨x - d, y + h + d⟩] := by
  have hw0 : (0:ℚ) < w := by linarith
  have hh0 : (0:ℚ) < h := by linarith
  have hs1 : Rat.sqrt ((x - (x + w)) * (x - (x + w)) + (y + h - (y + h)) * (y + h - (y + h))) = w := by
    rw [show (x - (x + w)) * (x - (x + w)) + (y + h - (y + h)) * (y + h - (y + h)) = w * w by ring]
    exact ratSqrt_mul_self w hw0.le
  have hs2 : Rat.sqrt ((x - x) * (x - x) + (y - (y + h)) * (y - (y + h))) = h := by
    rw [show (x - x) * (x - x) + (y - (y + h)) * (y - (y + h)) = h * h by ring]
    exact ratSqrt_mul_self h hh0.le
  have q1 : (x - (x + w)) / w = -1 := by field_simp
  have q2 : (y + h - (y + h)) / w = 0 := by rw [sub_self, zero_div]
  have q3 : (x - x) / h = 0 := by rw [sub_self, zero_div]
  have q4 : (y - (y + h)) / h = -1 := by field_simp
  rw [miterVertex]
  simp only [Bool.false_eq_true, if_false, hs1, hs2, q1, q2, q3, q4, neg_zero, neg_mul,
    one_mul, zero_mul, mul_zero, add_zero, zero_sub, sub_self, sub_zero, zero_div,
    mul_one, neg_neg, sub_neg_eq_add, mul_neg]
  norm_num
  simp only [ratSqrt_mul_self h hh0.le, ratSqrt_mul_self w hw0.le, neg_div,
    div_self hh0.ne', div_self hw0.ne', one_mul, neg_mul, neg_neg, mul_one]
  norm_num
  have cond1 : ¬ (w < 1/10000 ∨ h < 1/10000) := by push_neg; exact ⟨hw, hh⟩
  have cond2 : (1:ℚ)/10000 < |w * h| := by
    rw [abs_of_pos (by positivity)]
    linarith
  have qq : (-d - w) * h / (w * h) * w = -d - w := by
    field_simp
    ring
  rw [if_neg cond1, if_pos cond2, qq]
  rw [show x + w + (-d - w) - x = -d by ring]
  rw [show -d * -d + d * d = d * d + d * d by ring]
  rw [if_pos (ratSqrt_two_sq_le d hd)]
  norm_num [Point.mk.injEq]
  ring


/-- C1 (amended): for every axis-aligned rectangle whose sides are at least
the degenerate-edge threshold 1/10000 and whose side product exceeds the
parallel-intersection threshold 1/10000, and every positive distance `d`,
`offsetPolygon` is exactly the simple orthogonal expansion by `d` on every
side (each corner miter resolves to the expanded corner). -/
theorem offsetPolygon_rectangle (x y w h d : ℚ) (hw : 1/10000 ≤ w) (hh : 1/10000 ≤ h)
    (hwh : 1/10000 < w * h) (hd : 0 < d) :
    offsetPolygon (createRectangle x y w h) d =
      createRectangle (x - d) (y - d) (w + 2*d) (h + 2*d) := by
  rw [createRectangle, createRectangle]
  have hsh : shoelaceSum [(⟨x, y⟩ : Point), ⟨x + w, y⟩, ⟨x + w, y + h⟩, ⟨x, y + h⟩] = 2 * (w * h) := by
    rw [shoelaceSum_four]
    dsimp
    ring
  rw [offsetPolygon, if_neg hd.ne']
  simp only [List.length_cons, List.length_nil]
  norm_num [List.range_succ, List.getD_cons_zero, List.getD_cons_succ]
  have hCW : decide (shoelaceSum [(⟨x, y⟩ : Point), ⟨x + w, y⟩, ⟨x + w, y + h⟩, ⟨x, y + h⟩] < 0)
      = false := by
    apply decide_eq_false
    rw [hsh]
    nlinarith
  rw [hCW, miter_corner_TL x y w h d hw hh hwh hd, miter_corner_TR x y w h d hw hh hwh hd,
    miter_corner_BR x y w h d hw hh hwh hd, miter_corner_BL x y w h d hw hh hwh hd]
  simp only [List.singleton_append, List.cons_append, List.nil_append, List.cons.injEq,
    Point.mk.injEq, and_true, true_and]
  and_intros <;> ring

/-- Evaluation of `offsetPolygon` on a 0.01×0.01 rectangle with distance 1:
the corner determinant `|denom| = w*h = 1/10000` fails the strict
`> 0.0001` test, so every corner takes the parallel-lines average fallback
instead of the miter, yielding the midpoint corners. -/
theorem offsetPolygon_small_rect_eval :
    offsetPolygon (createRectangle 0 0 (1/100) (1/100)) 1 =
      [⟨-1/2, -1/2⟩, ⟨1/100 + 1/2, -1/2⟩, ⟨1/100 + 1/2, 1/100 + 1/2⟩, ⟨-1/2, 1/100 + 1/2⟩] := by
  have hsq : Rat.sqrt (1/10000 : ℚ) = 1/100 := by
    rw [show (1/10000 : ℚ) = (1/100) * (1/100) by norm_num]
    exact ratSqrt_mul_self _ (by norm_num)
  have habs : |(1:ℚ)/10000| = 1/10000 := abs_of_pos (by norm_num)
  norm_num [offsetPolygon, miterVertex, createRectangle, shoelaceSum, hsq, habs,
    List.range_succ, List.getD, Point.mk.injEq]


/-- C1 counterexample: the claim as stated (every axis-aligned rectangle,
every positive distance) fails on the 0.01×0.01 rectangle with distance 1:
the result is not the orthogonal expansion (its first vertex is
`(-1/2, -1/2)`, not `(-1, -1)`). -/
theorem offsetPolygon_rectangle_counterexample :
    offsetPolygon (createRectangle 0 0 (1/100) (1/100)) 1 ≠
      createRectangle (0 - 1) (0 - 1) (1/100 + 2 * 1) (1/100 + 2 * 1) := by
  rw [offsetPolygon_small_rect_eval]
  intro hc
  norm_num [createRectangle, Point.mk.injEq] at hc

/-- Witness for C1: the spec's square example, offsetting the square
`[(0,0),(10,0),(10,10),(0,10)]` by 1 gives exactly the square
`[(-1,-1),(11,-1),(11,11),(-1,11)]`. -/
theorem offsetPolygon_rectangle_witness :
    offsetPolygon (createSquare 0 0 10) 1 = createSquare (-1) (-1) 12 := by
  rw [createSquare, createSquare]
  rw [offsetPolygon_rectangle 0 0 10 10 1 (by norm_num) (by norm_num) (by norm_num) (by norm_num)]
  norm_num [createRectangle]

-- C10: every generated piece ends with a valid color index.

/-- Invariant of the color-assignment loop: if every already-processed
piece has a color in `[0, numColors)`, so does every piece of the final
list, for any draws in `[0,1)`. -/
theorem assignColorsGo_colors (numColors : ℕ) (scp : ℚ) (probs : List ℚ)
    (r : ℕ → ℚ) (hr : ∀ i, 0 ≤ r i ∧ r i < 1) (hnc : 1 ≤ numColors) :
    ∀ (todo done : List TessellationPiece) (k : ℕ),
      (∀ p ∈ done, 0 ≤ p.colorIndex ∧ p.colorIndex < numColors) →
      ∀ p ∈ (assignColorsGo numColors scp probs r done todo k).1,
        0 ≤ p.colorIndex ∧ p.colorIndex < numColors := by
  intro todo
  induction todo with
  | nil =>
    intro done k hdone p hp
    rw [assignColorsGo] at hp
    exact hdone p hp
  | cons piece rest ih =>
    intro done k hdone p hp
    rw [assignColorsGo] at hp
    refine ih _ _ ?_ p hp
    intro q hq
    rcases List.mem_append.mp hq with hq | hq
    · exact hdone q hq
    · have hq1 : q = (assignStep numColors scp probs r done piece k).1 := by
        simpa using hq
      subst hq1
      rw [assignStep]
      have hsub : ∀ c ∈ (List.range numColors).filter
          (fun (c : ℕ) => decide ((c : ℤ) ∉
            (forbiddenColors done piece.polygon scp r k).1)), c < numColors := by
        intro c hc
        have := List.mem_filter.mp hc
        exact List.mem_range.mp this.1
      exact chooseColor_range _ numColors probs _ ((hr _).1) ((hr _).2) hnc hsub

/-- C10: for every configuration with at least one color and every outcome
of the random source (draws in `[0,1)`), every piece returned by
`generateTessellation` has a color index in `[0, colors-1]` — no piece
keeps the unassigned sentinel `-1`. -/
theorem generateTessellation_colors_valid (config : TessellationConfig) (r : ℕ → ℚ)
    (hnc : 1 ≤ config.colors) (hr : ∀ i, 0 ≤ r i ∧ r i < 1) :
    ∀ p ∈ (generateTessellation config r).pieces,
      0 ≤ p.colorIndex ∧ p.colorIndex < config.colors := by
  intro p hp
  rw [generateTessellation] at hp
  simp only [assignColorsToPolygons] at hp
  exact assignColorsGo_colors config.colors config.sameColorProbability
    config.colorProbabilities r hr hnc _ [] _ (by intro q hq; cases hq) p hp


-- Concrete end-to-end evaluations of the generator (shared by C3/C5/C10).

/-- A 1×1 unsplit run: one full piece, color 0, and no `gridCol` value. -/
theorem smallRun_pieces_eval :
    (generateTessellation ⟨1, 1, 50, 2, 0, 0, 0, 0, 0, 0, 0, [50, 50]⟩
        (fun _ => (1/2 : ℚ))).pieces =
      [{ id := "r0-c0-full", polygon := [⟨0, 0⟩, ⟨50, 0⟩, ⟨50, 50⟩, ⟨0, 50⟩],
         colorIndex := 0, isTriangle := false, row := 0, col := 0, gridCol := none,
         position := .full }] := by
  norm_num [generateTessellation, rowWidthsList, generateRowWidths, generateRowHeights,
    buildRows, buildCells, createRectangle, pieceId, assignColorsToPolygons,
    assignColorsGo, assignStep, forbiddenColors, chooseColor, weightedRandomColor,
    pickWeighted, List.range_succ, List.getD, Point.mk.injEq]
  rfl

/-- A 1×1 run with `splitProbability = 1`: two triangle pieces with
sequential piece-columns 0 and 1, colors 0 and 1, and no `gridCol`. -/
theorem splitRun_pieces_eval :
    (generateTessellation ⟨1, 1, 50, 2, 1, 0, 0, 0, 0, 0, 0, [50, 50]⟩
        (fun _ => (1/2 : ℚ))).pieces =
      [{ id := "r0-c0-left", polygon := [⟨0, 0⟩, ⟨50, 0⟩, ⟨0, 50⟩],
         colorIndex := 0, isTriangle := true, row := 0, col := 0, gridCol := none,
         position := .top },
       { id := "r0-c0-right", polygon := [⟨50, 0⟩, ⟨50, 50⟩, ⟨0, 50⟩],
         colorIndex := 1, isTriangle := true, row := 0, col := 1, gridCol := none,
         position := .bottom }] := by
  norm_num [generateTessellation, rowWidthsList, generateRowWidths, generateRowHeights,
    buildRows, buildCells, createRectangle, pieceId, splitRectangle,
    assignColorsToPolygons, assignColorsGo, assignStep, forbiddenColors, chooseColor,
    weightedRandomColor, pickWeighted, sharesEdge, samePoint,
    List.range_succ, List.getD, Point.mk.injEq, List.countP, List.countP.go]
  and_intros <;> rfl

/-- The no-adjacent-duplicate scenario (1×3 grid of unsplit 50×50 cells,
2 colors, `sameColorProbability = 0`) under the all-zero draw outcome:
because `Math.random() > 0` is false for a draw of exactly 0, no neighbor
color is forbidden and all three pieces receive color 0. -/
theorem row3_pieces_eval :
    (generateTessellation ⟨1, 3, 50, 2, 0, 0, 0, 0, 0, 0, 0, [50, 50]⟩
        (fun _ => (0 : ℚ))).pieces =
      [{ id := "r0-c0-full", polygon := [⟨0, 0⟩, ⟨50, 0⟩, ⟨50, 50⟩, ⟨0, 50⟩],
         colorIndex := 0, isTriangle := false, row := 0, col := 0, gridCol := none,
         position := .full },
       { id := "r0-c1-full", polygon := [⟨50, 0⟩, ⟨100, 0⟩, ⟨100, 50⟩, ⟨50, 50⟩],
         colorIndex := 0, isTriangle := false, row := 0, col := 1, gridCol := none,
         position := .full },
       { id := "r0-c2-full", polygon := [⟨100, 0⟩, ⟨150, 0⟩, ⟨150, 50⟩, ⟨100, 50⟩],
         colorIndex := 0, isTriangle := false, row := 0, col := 2, gridCol := none,
         position := .full }] := by
  norm_num [generateTessellation, rowWidthsList, generateRowWidths, generateRowHeights,
    buildRows, buildCells, createRectangle, pieceId, splitRectangle,
    assignColorsToPolygons, assignColorsGo, assignStep, forbiddenColors, chooseColor,
    weightedRandomColor, pickWeighted, sharesEdge, samePoint,
    List.range_succ, List.getD, Point.mk.injEq, List.countP, List.countP.go]
  and_intros <;> rfl

/-- C3 (amended): in the 1×3 unsplit scenario with 2 colors and
`sameColorProbability = 0`, for every outcome whose draws are strictly
positive (so each same-color-allowance draw actually forbids the
neighbor's color), consecutive pieces always get different colors.  A
draw of exactly 0 — possible for `Math.random()` — defeats the
adjacency check, see the counterexample. -/
theorem adjacent_pieces_differ (probs : List ℚ) (r : ℕ → ℚ)
    (hr : ∀ i, 0 < r i ∧ r i < 1) :
    List.Chain' (fun a b => b.colorIndex ≠ a.colorIndex)
      (generateTessellation ⟨1, 3, 50, 2, 0, 0, 0, 0, 0, 0, 0, probs⟩ r).pieces ∧
    (generateTessellation ⟨1, 3, 50, 2, 0, 0, 0, 0, 0, 0, 0, probs⟩ r).pieces.length = 3 := by
  have hs0 : ¬ (r 0 < (0:ℚ)) := not_lt.mpr (hr 0).1.le
  have hs1 : ¬ (r 1 < (0:ℚ)) := not_lt.mpr (hr 1).1.le
  have hs2 : ¬ (r 2 < (0:ℚ)) := not_lt.mpr (hr 2).1.le
  have hpieces : (generateTessellation ⟨1, 3, 50, 2, 0, 0, 0, 0, 0, 0, 0, probs⟩ r).pieces =
      (assignColorsGo 2 0 probs r []
        [{ id := "r0-c0-full", polygon := [⟨0, 0⟩, ⟨50, 0⟩, ⟨50, 50⟩, ⟨0, 50⟩],
           colorIndex := -1, isTriangle := false, row := 0, col := 0, gridCol := none,
           position := .full },
         { id := "r0-c1-full", polygon := [⟨50, 0⟩, ⟨100, 0⟩, ⟨100, 50⟩, ⟨50, 50⟩],
           colorIndex := -1, isTriangle := false, row := 0, col := 1, gridCol := none,
           position := .full },
         { id := "r0-c2-full", polygon := [⟨100, 0⟩, ⟨150, 0⟩, ⟨150, 50⟩, ⟨100, 50⟩],
           colorIndex := -1, isTriangle := false, row := 0, col := 2, gridCol := none,
           position := .full }] 3).1 := by
    rw [generateTessellation]
    norm_num [rowWidthsList, generateRowWidths, generateRowHeights, buildRows, buildCells,
      createRectangle, pieceId, assignColorsToPolygons, hs0, hs1, hs2, Point.mk.injEq,
      List.getD]
    rfl
  have hadj10 : sharesEdge
      [(⟨50, 0⟩ : Point), ⟨100, 0⟩, ⟨100, 50⟩, ⟨50, 50⟩]
      [(⟨0, 0⟩ : Point), ⟨50, 0⟩, ⟨50, 50⟩, ⟨0, 50⟩] = true := by
    norm_num [sharesEdge, samePoint, List.countP, List.countP.go]
  have hadj20 : sharesEdge
      [(⟨100, 0⟩ : Point), ⟨150, 0⟩, ⟨150, 50⟩, ⟨100, 50⟩]
      [(⟨0, 0⟩ : Point), ⟨50, 0⟩, ⟨50, 50⟩, ⟨0, 50⟩] = false := by
    norm_num [sharesEdge, samePoint, List.countP, List.countP.go]
  have hadj21 : sharesEdge
      [(⟨100, 0⟩ : Point), ⟨150, 0⟩, ⟨150, 50⟩, ⟨100, 50⟩]
      [(⟨50, 0⟩ : Point), ⟨100, 0⟩, ⟨100, 50⟩, ⟨50, 50⟩] = true := by
    norm_num [sharesEdge, samePoint, List.countP, List.countP.go]
  have h4 : (0:ℚ) < r 4 := (hr 4).1
  have h6 : (0:ℚ) < r 6 := (hr 6).1
  have hc0mem : weightedRandomColor [0, 1] probs (r 3) ∈ [0, 1] :=
    weightedRandomColor_mem _ _ _ (by simp) (hr 3).1.le (hr 3).2
  rw [hpieces]
  constructor
  · rcases List.mem_cons.mp hc0mem with hc0 | hc0
    · have hw5 : weightedRandomColor [1] probs (r 5) = 1 :=
        weightedRandomColor_singleton 1 probs (r 5) (hr 5).1.le (hr 5).2
      have hw7 : weightedRandomColor [0] probs (r 7) = 0 :=
        weightedRandomColor_singleton 0 probs (r 7) (hr 7).1.le (hr 7).2
      norm_num [assignColorsGo, assignStep, forbiddenColors, chooseColor, hc0, hadj10,
        hadj20, hadj21, h4, h6, hw5, hw7, List.range_succ, List.chain'_cons]
    · have hc0' : weightedRandomColor [0, 1] probs (r 3) = 1 := by simpa using hc0
      have hw5 : weightedRandomColor [0] probs (r 5) = 0 :=
        weightedRandomColor_singleton 0 probs (r 5) (hr 5).1.le (hr 5).2
      have hw7 : weightedRandomColor [1] probs (r 7) = 1 :=
        weightedRandomColor_singleton 1 probs (r 7) (hr 7).1.le (hr 7).2
      norm_num [assignColorsGo, assignStep, forbiddenColors, chooseColor, hc0', hadj10,
        hadj20, hadj21, h4, h6, hw5, hw7, List.range_succ, List.chain'_cons]
  · rcases List.mem_cons.mp hc0mem with hc0 | hc0
    · have hw5 : weightedRandomColor [1] probs (r 5) = 1 :=
        weightedRandomColor_singleton 1 probs (r 5) (hr 5).1.le (hr 5).2
      have hw7 : weightedRandomColor [0] probs (r 7) = 0 :=
        weightedRandomColor_singleton 0 probs (r 7) (hr 7).1.le (hr 7).2
      norm_num [assignColorsGo, assignStep, forbiddenColors, chooseColor, hc0, hadj10,
        hadj20, hadj21, h4, h6, hw5, hw7, List.range_succ]
    · have hc0' : weightedRandomColor [0, 1] probs (r 3) = 1 := by simpa using hc0
      have hw5 : weightedRandomColor [0] probs (r 5) = 0 :=
        weightedRandomColor_singleton 0 probs (r 5) (hr 5).1.le (hr 5).2
      have hw7 : weightedRandomColor [1] probs (r 7) = 1 :=
        weightedRandomColor_singleton 1 probs (r 7) (hr 7).1.le (hr 7).2
      norm_num [assignColorsGo, assignStep, forbiddenColors, chooseColor, hc0', hadj10,
        hadj20, hadj21, h4, h6, hw5, hw7, List.range_succ]


/-- Witness for C3 at weights `[50, 50]` and constant draw 1/2. -/
theorem adjacent_pieces_differ_witness :
    List.Chain' (fun a b => b.colorIndex ≠ a.colorIndex)
      (generateTessellation ⟨1, 3, 50, 2, 0, 0, 0, 0, 0, 0, 0, [50, 50]⟩
        (fun _ => (1/2 : ℚ))).pieces ∧
    (generateTessellation ⟨1, 3, 50, 2, 0, 0, 0, 0, 0, 0, 0, [50, 50]⟩
        (fun _ => (1/2 : ℚ))).pieces.length = 3 :=
  adjacent_pieces_differ [50, 50] (fun _ => (1/2 : ℚ)) (fun _ => by norm_num)

/-- C3 counterexample: under the all-zero outcome (a legal value of
`Math.random()`, whose range is `[0,1)`), every piece of the scenario gets
color 0, so adjacent pieces 0 and 1 share a color — the claim quantified
over every outcome is false. -/
theorem adjacent_pieces_differ_counterexample :
    ((generateTessellation ⟨1, 3, 50, 2, 0, 0, 0, 0, 0, 0, 0, [50, 50]⟩
        (fun _ => (0 : ℚ))).pieces.map (fun p => p.colorIndex)) = [0, 0, 0] ∧
    ¬ List.Chain' (fun a b => b.colorIndex ≠ a.colorIndex)
        (generateTessellation ⟨1, 3, 50, 2, 0, 0, 0, 0, 0, 0, 0, [50, 50]⟩
          (fun _ => (0 : ℚ))).pieces ∧
    sharesEdge
      ((generateTessellation ⟨1, 3, 50, 2, 0, 0, 0, 0, 0, 0, 0, [50, 50]⟩
          (fun _ => (0 : ℚ))).pieces.getD 1 default).polygon
      ((generateTessellation ⟨1, 3, 50, 2, 0, 0, 0, 0, 0, 0, 0, [50, 50]⟩
          (fun _ => (0 : ℚ))).pieces.getD 0 default).polygon = true := by
  rw [row3_pieces_eval]
  refine ⟨by norm_num, ?_, ?_⟩
  · norm_num [List.chain'_cons]
  · norm_num [List.getD, sharesEdge, samePoint, List.countP, List.countP.go]

-- C5: the gridCol metadata field is never populated.

/-- C5 evaluation: the `TessellationPiece` interface declares a required
`gridCol` ("original grid column") field, but the piece objects built by
`generateTessellation` omit it, for unsplit and split pieces alike — every
emitted piece carries `gridCol = none` (JS `undefined`). -/
theorem generateTessellation_gridCol_missing :
    ((generateTessellation ⟨1, 1, 50, 2, 0, 0, 0, 0, 0, 0, 0, [50, 50]⟩
        (fun _ => (1/2 : ℚ))).pieces.map (fun p => p.gridCol)) = [none] ∧
    ((generateTessellation ⟨1, 1, 50, 2, 1, 0, 0, 0, 0, 0, 0, [50, 50]⟩
        (fun _ => (1/2 : ℚ))).pieces.map (fun p => p.gridCol)) = [none, none] := by
  rw [smallRun_pieces_eval, splitRun_pieces_eval]
  norm_num

/-- Witness for C10 at a concrete 1×1 run with two colors and draw 1/2. -/
theorem generateTessellation_colors_valid_witness :
    0 ≤ ((generateTessellation ⟨1, 1, 50, 2, 0, 0, 0, 0, 0, 0, 0, [50, 50]⟩
        (fun _ => (1/2 : ℚ))).pieces.headD default).colorIndex ∧
    ((generateTessellation ⟨1, 1, 50, 2, 0, 0, 0, 0, 0, 0, 0, [50, 50]⟩
        (fun _ => (1/2 : ℚ))).pieces.headD default).colorIndex < 2 := by
  have h := generateTessellation_colors_valid
    ⟨1, 1, 50, 2, 0, 0, 0, 0, 0, 0, 0, [50, 50]⟩ (fun _ => (1/2 : ℚ))
    (by norm_num) (fun _ => by norm_num)
  exact h _ (by rw [smallRun_pieces_eval]; simp)
